import Mathlib

/-!
Shallow embedding of the cointest repository's statistical core.

Sources embedded:
* src/lib/adf_test.py   — pure-Python OLS estimator and ADF unit-root engine
* src/api/calculate_adf.py — series aligner and rolling pairs pipeline
* src/api/adf-test.py   — the library-backed endpoint's isStationary derivation

Conventions of the embedding:
* Python floats are idealized as exact rationals (ℚ); the one place where a
  genuinely irrational value arises (a square root inside the standard error /
  t-statistic) is carried either symbolically (the radicand) or in ℝ.
* Python exceptions are modelled with Except; a raised exception is an
  .error value.  float nan (np.nan) is modelled as Option.none.
* Python dict results are modelled as structures, with the literal key list of
  the returned dict kept separately where a claim is about the keys.
-/

namespace Cointest

/-! ### lib/adf_test.py, lines 3-19: mean, variance, covariance -/

/-- lib/adf_test.py lines 3-6: mean of a list, 0 for the empty list. -/
def mean (values : List ℚ) : ℚ :=
  if values = [] then 0 else values.sum / values.length

/-- lib/adf_test.py lines 8-12: sum of squared deviations from the mean
(the source's variance is NOT normalized by the length), 0 when fewer
than 2 points. -/
def variance (values : List ℚ) : ℚ :=
  if values.length < 2 then 0
  else ((values.map (fun x => (x - mean values) ^ 2)).sum)

/-- lib/adf_test.py lines 14-19: un-normalized covariance, 0 on length
mismatch or empty input. -/
def covariance (x y : List ℚ) : ℚ :=
  if x.length ≠ y.length ∨ x = [] then 0
  else ((x.zip y).map (fun p => (p.1 - mean x) * (p.2 - mean y))).sum

/-! ### lib/adf_test.py, lines 21-29: ols_regression -/

/-- lib/adf_test.py lines 21-29.  Returns (alpha, beta, residuals) exactly as
the source tuple does.  Note the degenerate branch literally returns
the tuple (0, 0, deviations-of-y) — its first component (the alpha slot)
is 0, even though the adjacent source comment says alpha = mean(y). -/
def ols_regression (x y : List ℚ) : ℚ × ℚ × List ℚ :=
  if x.length < 2 ∨ variance x = 0 then
    (0, 0, y.map (fun yi => yi - mean y))
  else
    let beta := covariance x y / variance x
    let alpha := mean y - beta * mean x
    (alpha, beta, (x.zip y).map (fun p => p.2 - (alpha + beta * p.1)))

/-! ### lib/adf_test.py, lines 31-43: standard_error -/

/-- Errors of the ADF engine.  The first three are the explicit ValueError
raises of adf_test's validation (lines 60-65); the next two are the later
ValueError raises (lines 82-92); zeroDivision is the ZeroDivisionError
implicitly raised by standard_error when len(x) = 2 (division by n - 2);
overflowRound is the OverflowError raised by round(float inf, 4). -/
inductive AdfError where
  | seriesTooShort
  | negativeLags
  | lagsTooLarge
  | notEnoughAfterLags
  | notEnoughForRegression
  | zeroDivision
  | overflowRound
deriving DecidableEq, Repr

/-- The value of standard_error: either the float inf sentinel, or the exact
radicand q of the returned float (se2 / sx) ** 0.5, i.e. the return value
is sqrt q.  Carrying the radicand keeps the embedding exact and computable. -/
inductive StdErr where
  | inf : StdErr
  | val : ℚ → StdErr
deriving DecidableEq, Repr

/-- lib/adf_test.py line 36: sum((xi - mean(x)) ** 2 for xi in x). -/
def sumSqDev (x : List ℚ) : ℚ :=
  (x.map (fun xi => (xi - mean x) ^ 2)).sum

/-- lib/adf_test.py lines 31-43.  Returns inf when n < 2 or the sum of
squared deviations of x is 0, otherwise sqrt(se2 / sx) where
se2 = Σ residual² / (n - 2), clamped below at 0.  When n = 2 the source
divides by n - 2 = 0 and Python raises ZeroDivisionError; that raise is
the .error branch here. -/
def standard_error (x residuals : List ℚ) : Except AdfError StdErr :=
  if x.length < 2 then .ok .inf
  else if sumSqDev x = 0 then .ok .inf
  else if (x.length : ℚ) - 2 = 0 then .error .zeroDivision
  else
    let se2 := (residuals.map (fun r => r ^ 2)).sum / ((x.length : ℚ) - 2)
    let se2c := if se2 < 0 then 0 else se2
    .ok (.val (se2c / sumSqDev x))

/-! ### lib/adf_test.py, lines 45-56: get_critical_values -/

/-- The critical-value triple a bucket of the fixed table carries
(keys "1%", "5%", "10%" of the source dict). -/
structure CritVals where
  c1 : ℚ
  c5 : ℚ
  c10 : ℚ
deriving DecidableEq, Repr

/-- lib/adf_test.py lines 45-56: the fixed sample-size-bucket table. -/
def get_critical_values (n : ℕ) : CritVals :=
  if n ≤ 25 then ⟨-3.75, -3.00, -2.63⟩
  else if n ≤ 50 then ⟨-3.58, -2.93, -2.60⟩
  else if n ≤ 100 then ⟨-3.50, -2.89, -2.58⟩
  else ⟨-3.46, -2.88, -2.57⟩

/-! ### lib/adf_test.py, lines 58-111: adf_test -/

/-- The exact (un-rounded) data adf_test has in hand after the regression
and standard-error steps (lines 94-95), together with the original
length n and the lags argument. -/
structure AdfCore where
  alpha : ℚ
  beta : ℚ
  se : StdErr
  lags : ℤ
  n : ℕ
deriving DecidableEq, Repr

/-- lib/adf_test.py lines 91-95: the final length check, the OLS fit and the
standard error, producing the exact core data. -/
def mkCore (n : ℕ) (lags : ℤ) (x y : List ℚ) : Except AdfError AdfCore :=
  if x.length < 2 then .error .notEnoughForRegression
  else
    let abr := ols_regression x y
    (standard_error x abr.2.2).map (fun se =>
      { alpha := abr.1, beta := abr.2.1, se := se, lags := lags, n := n })

/-- lib/adf_test.py lines 58-95: validation, differencing, lag truncation and
the regression, up to (but not including) the t-statistic and rounding. -/
def adf_core (series : List ℚ) (lags : ℤ) : Except AdfError AdfCore :=
  let n := series.length
  if n < 20 then .error .seriesTooShort
  else if lags < 0 then .error .negativeLags
  else if (n : ℤ) - 1 ≤ lags then .error .lagsTooLarge
  else
    let diff := List.zipWith (fun a b => a - b) series.tail series
    let y_lag := series.dropLast
    if 0 < lags then
      if (diff.length : ℤ) ≤ lags then .error .notEnoughAfterLags
      else mkCore n lags (y_lag.drop lags.toNat) (diff.drop lags.toNat)
    else mkCore n lags y_lag diff

/-- The float value of a StdErr: none stands for float inf,
some (sqrt q) is the finite value. -/
noncomputable def seReal : StdErr → Option ℝ
  | .inf => none
  | .val q => some (Real.sqrt q)

/-- lib/adf_test.py lines 97-100: the t-statistic.  none stands for the float
inf produced when se == 0 and beta ≠ 0.  When se is the float inf
(first match arm), IEEE division gives beta / inf = 0. -/
noncomputable def t_stat (beta : ℚ) (se : Option ℝ) : Option ℝ :=
  match se with
  | none => some 0
  | some s =>
      open Classical in
      if s = 0 then (if beta = 0 then some 0 else none)
      else some ((beta : ℝ) / s)

/-- Python's round-half-to-even on an exact value, as an integer. -/
noncomputable def roundHE {α : Type} [LinearOrderedField α] [FloorRing α]
    (x : α) : ℤ :=
  open Classical in
  if x - (⌊x⌋ : α) < 1 / 2 then ⌊x⌋
  else if (1 : α) / 2 < x - (⌊x⌋ : α) then ⌊x⌋ + 1
  else if Even ⌊x⌋ then ⌊x⌋ else ⌊x⌋ + 1

/-- Python's round(x, 4): round half-to-even at 4 decimal places. -/
noncomputable def round4 {α : Type} [LinearOrderedField α] [FloorRing α]
    (x : α) : ℚ :=
  ((roundHE (x * 10000) : ℤ) : ℚ) / 10000

/-- The result dict of lib/adf_test.py lines 104-111, as a structure. -/
structure AdfResult where
  t_stat : ℚ
  alpha : ℚ
  beta : ℚ
  lag_used : ℤ
  critical_values : CritVals
  series_length : ℕ
deriving DecidableEq, Repr

/-- The literal key list of the result dict returned at
lib/adf_test.py lines 104-111. -/
def adf_result_keys : List String :=
  ["t_stat", "alpha", "beta", "lag_used", "critical_values", "series_length"]

/-- lib/adf_test.py lines 97-111: t-statistic, rounding and result assembly.
round(float inf, 4) raises OverflowError in Python, hence the error arm. -/
noncomputable def finalize (c : AdfCore) : Except AdfError AdfResult :=
  match t_stat c.beta (seReal c.se) with
  | none => .error .overflowRound
  | some t =>
      .ok { t_stat := round4 t, alpha := round4 c.alpha, beta := round4 c.beta,
            lag_used := c.lags, critical_values := get_critical_values c.n,
            series_length := c.n }

/-- lib/adf_test.py lines 58-111: the full ADF engine. -/
noncomputable def adf_test (series : List ℚ) (lags : ℤ) :
    Except AdfError AdfResult :=
  (adf_core series lags).bind finalize

/-! ### api/adf-test.py, line 111: the library-backed isStationary -/

/-- api/adf-test.py line 111: is_stationary = p_value <= 0.05.  The p-value
itself comes from statsmodels (out of scope); only the derivation rule is
code of this repository. -/
def is_stationary (p_value : ℚ) : Bool :=
  decide (p_value ≤ 0.05)

/-! ### api/calculate_adf.py, lines 41-58: the series aligner -/

/-- One aligned record: date (dates idealized as naturals), Close_TCS (pa)
and Close_HCLTECH (pb). -/
structure ARec where
  date : ℕ
  pa : ℚ
  pb : ℚ
deriving DecidableEq, Repr

def defaultARec : ARec := ⟨0, 0, 0⟩

/-- api/calculate_adf.py lines 43-44: dict(zip(dates, prices)); for duplicate
dates the last binding wins, hence lookup in the reversed list. -/
def dictOf (l : List (ℕ × ℚ)) (d : ℕ) : Option ℚ :=
  l.reverse.lookup d

/-- api/calculate_adf.py line 46:
sorted(list(set(tcs_dates).intersection(set(hcltech_dates)))).
The distinct dates of a that also occur in b, sorted ascending. -/
def allDates (a b : List (ℕ × ℚ)) : List ℕ :=
  List.insertionSort (· ≤ ·)
    (((a.map Prod.fst).filter (fun d => decide (d ∈ b.map Prod.fst))).dedup)

/-- api/calculate_adf.py lines 42-55: build the aligned records for the common
dates.  The source's membership re-check (line 49) is the match (it always
succeeds for a common date), and the final stable re-sort by date (line 55)
is a no-op because allDates is already sorted ascending with no duplicates. -/
def alignData (a b : List (ℕ × ℚ)) : List ARec :=
  (allDates a b).filterMap (fun d =>
    match dictOf a d, dictOf b d with
    | some p, some q => some ⟨d, p, q⟩
    | _, _ => none)

/-! ### api/calculate_adf.py, lines 60-116: the rolling pairs pipeline -/

/-- One emitted signal record (api/calculate_adf.py lines 105-114).
z_score: np.nan is none; a defined z-score is kept exactly as the pair
(spread_value - mean, population variance): the float the source holds is
fst / sqrt snd, kept unevaluated because the square root is irrational.
adf_statistic: np.nan is none. -/
structure SignalRecord where
  date : ℕ
  s1close : ℚ
  s2close : ℚ
  alpha : ℚ
  beta : ℚ
  spread : ℚ
  z_score : Option (ℚ × ℚ)
  adf_statistic : Option ℚ
deriving DecidableEq, Repr

def defaultSignalRecord : SignalRecord := ⟨0, 0, 0, 0, 0, 0, none, none⟩

/-- Population variance (np.std(l) ** 2): np.std is the population standard
deviation, which is 0 exactly when this is 0. -/
def popVar (l : List ℚ) : ℚ :=
  (l.map (fun s => (s - mean l) ^ 2)).sum / l.length

/-- api/calculate_adf.py lines 69-76: np.linalg.lstsq on the design
[1, x] — the exact least-squares solution (alpha, beta), minimum-norm when
the design is singular (all x equal), matching the SVD-based lstsq in exact
arithmetic.  In exact arithmetic lstsq always succeeds, so the source's
LinAlgError skip (line 75-76) is unreachable. -/
def lstsq2 (x y : List ℚ) : ℚ × ℚ :=
  if sumSqDev x ≠ 0 then
    let beta := covariance x y / sumSqDev x
    (mean y - beta * mean x, beta)
  else
    let c := x.headD 0
    (mean y / (1 + c ^ 2), c * mean y / (1 + c ^ 2))

/-- api/calculate_adf.py line 64: the trailing window of W records ending at
aligned index i: aligned_data[i - window + 1 : i + 1]. -/
def windowOf (aligned : List ARec) (W i : ℕ) : List ARec :=
  (aligned.drop (i + 1 - W)).take W

/-- api/calculate_adf.py lines 66-74: the (alpha, beta) fit of the window,
x = Close_TCS, y = Close_HCLTECH. -/
def windowAB (aligned : List ARec) (W i : ℕ) : ℚ × ℚ :=
  lstsq2 ((windowOf aligned W i).map (·.pa))
    ((windowOf aligned W i).map (·.pb))

/-- api/calculate_adf.py lines 78-80: the spread at the window's current
(last) point. -/
def spreadValue (aligned : List ARec) (W i : ℕ) : ℚ :=
  (aligned.getD i defaultARec).pb -
    ((windowAB aligned W i).1 +
      (windowAB aligned W i).2 * (aligned.getD i defaultARec).pa)

/-- api/calculate_adf.py lines 82-86: the window spread series
s_k = Close_HCLTECH_k - (alpha + beta * Close_TCS_k). -/
def windowSpreads (aligned : List ARec) (W i : ℕ) : List ℚ :=
  (windowOf aligned W i).map (fun r =>
    r.pb - ((windowAB aligned W i).1 + (windowAB aligned W i).2 * r.pa))

/-- api/calculate_adf.py lines 88-93: the z-score is nan (none) unless the
window has more than one point and a nonzero spread standard deviation
(np.std is the population standard deviation, zero exactly when the
population variance is). -/
def windowZ (aligned : List ARec) (W i : ℕ) : Option (ℚ × ℚ) :=
  if 1 < (windowSpreads aligned W i).length ∧
      popVar (windowSpreads aligned W i) ≠ 0 then
    some (spreadValue aligned W i - mean (windowSpreads aligned W i),
      popVar (windowSpreads aligned W i))
  else none

/-- api/calculate_adf.py lines 95-101: the rolling statistic is nan (none)
unless the window has more than 10 points and the spreads are not all equal
to the first one (np.all(spread_series == spread_series[0])); oracle models
the external arch ADF call wrapped in try/except, whose failure (none) also
leaves the statistic nan. -/
def windowStat (aligned : List ARec) (W : ℕ) (oracle : List ℚ → Option ℚ)
    (i : ℕ) : Option ℚ :=
  if 10 < (windowSpreads aligned W i).length ∧
      ¬ (∀ s ∈ windowSpreads aligned W i,
          s = (windowSpreads aligned W i).headD 0) then
    oracle (windowSpreads aligned W i)
  else none

/-- api/calculate_adf.py lines 66-114: the record emitted for the window
ending at aligned index i (lines 105-114). -/
def windowRecord (aligned : List ARec) (W : ℕ) (oracle : List ℚ → Option ℚ)
    (i : ℕ) : SignalRecord :=
  { date := (aligned.getD i defaultARec).date,
    s1close := (aligned.getD i defaultARec).pa,
    s2close := (aligned.getD i defaultARec).pb,
    alpha := (windowAB aligned W i).1, beta := (windowAB aligned W i).2,
    spread := spreadValue aligned W i,
    z_score := windowZ aligned W i,
    adf_statistic := windowStat aligned W oracle i }

/-- One step of the source loop (api/calculate_adf.py lines 63-114): append
the record and unconditionally overwrite last_adf_statistic with this
window's adf_statistic (line 103 runs even when the statistic is nan). -/
def pipeStep (aligned : List ARec) (W : ℕ) (oracle : List ℚ → Option ℚ)
    (acc : List SignalRecord × Option ℚ) (i : ℕ) :
    List SignalRecord × Option ℚ :=
  let r := windowRecord aligned W oracle i
  (acc.1 ++ [r], r.adf_statistic)

/-- api/calculate_adf.py lines 60-114: the loop over end indices
i = window - 1 .. len(aligned) - 1, starting from ([], None). -/
def pipeLoop (aligned : List ARec) (W : ℕ) (oracle : List ℚ → Option ℚ) :
    List SignalRecord × Option ℚ :=
  (List.range' (W - 1) (aligned.length - W + 1)).foldl
    (pipeStep aligned W oracle) ([], none)

/-- The success payload of the pipeline (api/calculate_adf.py line 116). -/
structure PipeOut where
  results : List SignalRecord
  last_adf_statistic : Option ℚ
deriving DecidableEq, Repr

/-- The DataError message of api/calculate_adf.py line 58 (the source
interpolates the lengths into it; the text is irrelevant here). -/
def insufficientDataMsg : String :=
  "Not enough aligned data points for the requested window."

/-- api/calculate_adf.py lines 36-116: align, check the window precondition,
run the rolling loop.  The inputs are the two date-keyed price series as the
out-of-scope CSV layer hands them over (already parsed and date-sorted). -/
def run_ols_and_adf_arch_api (tcs hcl : List (ℕ × ℚ)) (W : ℕ)
    (oracle : List ℚ → Option ℚ) : Except String PipeOut :=
  let aligned := alignData tcs hcl
  if aligned.length < W then .error insufficientDataMsg
  else
    .ok { results := (pipeLoop aligned W oracle).1,
          last_adf_statistic := (pipeLoop aligned W oracle).2 }

/-! ### Derived definitions and concrete inputs used by the development -/

/-- The exact core adf_test computes on a constant series of 20 ones:
diff is 19 zeros, the regressor is 19 ones (zero variance), so the fit is
the degenerate (0, 0, zero-residuals) one and the standard error is inf. -/
def constCore : AdfCore :=
  { alpha := 0, beta := 0, se := .inf, lags := 0, n := 20 }

/-- The rounded result adf_test returns on a constant series of 20 ones. -/
def constResult : AdfResult :=
  { t_stat := 0, alpha := 0, beta := 0, lag_used := 0,
    critical_values := ⟨-3.75, -3.00, -2.63⟩, series_length := 20 }

/-- The three explicit validation raises of adf_test lines 60-65. -/
def isCoreCheck : AdfError → Bool
  | .seriesTooShort => true
  | .negativeLags => true
  | .lagsTooLarge => true
  | _ => false

/-- Whether an engine outcome is one of the three validation failures. -/
def coreCheckError : Except AdfError AdfResult → Bool
  | .error e => isCoreCheck e
  | .ok _ => false

/-- The exact (unrounded) t-statistic of a computed core, as the engine
forms it at lib/adf_test.py lines 97-100 (none is the float inf). -/
noncomputable def exact_t (c : AdfCore) : Option ℝ :=
  t_stat c.beta (seReal c.se)

/-- The aligned record the aligner builds for a common date d. -/
def alignedOf (a b : List (ℕ × ℚ)) (d : ℕ) : ARec :=
  ⟨d, (dictOf a d).getD 0, (dictOf b d).getD 0⟩

/-- The spec's aligner example: series A has dates 1, 2, 3, 5 and series B
has dates 2, 3, 4, 5. -/
def c7A : List (ℕ × ℚ) := [(1, 10), (2, 20), (3, 30), (5, 50)]

def c7B : List (ℕ × ℚ) := [(2, 1), (3, 2), (4, 3), (5, 4)]

/-- A concrete series: prices equal to the date on dates 0..11 ... -/
def c3tcs : List (ℕ × ℚ) := (List.range 12).map (fun k => (k, (k : ℚ)))

/-- ... and the same, except the price on date 0 is 5.  With window 11 the
first window (dates 0-10) has a non-degenerate spread so its rolling
statistic is computed, while the second window (dates 1-11) fits exactly
(all spreads 0) so its statistic is skipped (nan). -/
def c3hcl : List (ℕ × ℚ) :=
  (0, (5:ℚ)) :: (List.range 11).map (fun k => (k + 1, ((k : ℚ) + 1)))

/-- The success payload of the pipeline on the c3tcs/c3hcl input. -/
def c3out : PipeOut :=
  (run_ols_and_adf_arch_api c3tcs c3hcl 11 (fun _ => some 1)).toOption.getD
    ⟨[], none⟩

/-- A concrete input with three aligned dates, for window 2. -/
def c5a : List (ℕ × ℚ) := [(0, 1), (1, 2), (2, 3)]

def c5b : List (ℕ × ℚ) := [(0, 2), (1, 3), (2, 5)]

def c5out : PipeOut :=
  (run_ols_and_adf_arch_api c5a c5b 2 (fun _ => none)).toOption.getD ⟨[], none⟩

/-- A concrete input with two aligned dates and constant Close_HCLTECH, so
the window of both points fits exactly and all spreads are 0. -/
def c8a : List (ℕ × ℚ) := [(0, 0), (1, 1)]

def c8b : List (ℕ × ℚ) := [(0, 5), (1, 5)]

/-! ### Generic helper lemmas -/

/-- For n ≥ 2 the source's variance and the standard error's sx are the same
sum of squared deviations. -/
lemma variance_eq_sumSqDev {x : List ℚ} (h : 2 ≤ x.length) :
    variance x = sumSqDev x := by
  rw [variance, sumSqDev, if_neg (by omega)]

/-- Under the degenerate hypothesis of the sentinel policy the OLS fit takes
the degenerate branch, so its beta component is 0. -/
lemma ols_beta_eq_zero {x y : List ℚ}
    (h : x.length < 2 ∨ sumSqDev x = 0) :
    (ols_regression x y).2.1 = 0 := by
  rcases h with h | h
  · rw [ols_regression, if_pos (Or.inl h)]
  · by_cases h2 : x.length < 2
    · rw [ols_regression, if_pos (Or.inl h2)]
    · rw [ols_regression, if_pos (Or.inr (by rw [variance_eq_sumSqDev (by omega)]; exact h))]

/-- Under the degenerate hypothesis, standard_error returns the inf sentinel
(lib/adf_test.py lines 33-38), before any division can be attempted. -/
lemma standard_error_inf {x residuals : List ℚ}
    (h : x.length < 2 ∨ sumSqDev x = 0) :
    standard_error x residuals = .ok .inf := by
  rcases h with h | h
  · rw [standard_error, if_pos h]
  · by_cases h2 : x.length < 2
    · rw [standard_error, if_pos h2]
    · rw [standard_error, if_neg h2, if_pos h]

lemma t_stat_of_inf (beta : ℚ) : t_stat beta (seReal .inf) = some 0 := rfl

/-- Success inversion for mkCore: the returned core carries the n it was
given. -/
lemma mkCore_n {n : ℕ} {l : ℤ} {x y : List ℚ} {c : AdfCore}
    (h : mkCore n l x y = .ok c) : c.n = n := by
  simp only [mkCore] at h
  split_ifs at h
  rcases hse : standard_error x (ols_regression x y).2.2 with e | se <;>
    rw [hse] at h
  · exact absurd h (by simp [Except.map])
  · simp only [Except.map] at h
    injection h with h
    exact (congrArg AdfCore.n h).symm

/-- Success inversion for adf_core: the returned core carries the original
series length. -/
lemma adf_core_n {s : List ℚ} {l : ℤ} {c : AdfCore}
    (h : adf_core s l = .ok c) : c.n = s.length := by
  simp only [adf_core] at h
  split_ifs at h <;>
    first
    | exact absurd h (by simp)
    | exact mkCore_n h

/-- Success inversion for finalize: the exact t-statistic is finite and the
result is the rounded record. -/
lemma finalize_ok {c : AdfCore} {r : AdfResult} (h : finalize c = .ok r) :
    ∃ t, t_stat c.beta (seReal c.se) = some t ∧
      r = { t_stat := round4 t, alpha := round4 c.alpha, beta := round4 c.beta,
            lag_used := c.lags, critical_values := get_critical_values c.n,
            series_length := c.n } := by
  rw [finalize] at h
  rcases ht : t_stat c.beta (seReal c.se) with _ | t <;> rw [ht] at h
  · exact absurd h (by simp)
  · exact ⟨t, rfl, by injection h with h; exact h.symm⟩

lemma adf_test_ok {s : List ℚ} {l : ℤ} {r : AdfResult}
    (h : adf_test s l = .ok r) :
    ∃ c, adf_core s l = .ok c ∧ finalize c = .ok r := by
  rw [adf_test] at h
  rcases hc : adf_core s l with e | c <;> rw [hc] at h
  · exact absurd h (by simp [Except.bind])
  · exact ⟨c, rfl, h⟩

/-! ### Concrete evaluation helpers: the constant series of 20 ones -/

lemma adf_core_replicate20 :
    adf_core (List.replicate 20 (1:ℚ)) 0 = .ok constCore := by
  with_unfolding_all rfl

lemma roundHE_zero {α : Type} [LinearOrderedField α] [FloorRing α] :
    roundHE (0 : α) = 0 := by
  rw [roundHE]
  norm_num

lemma round4_zero {α : Type} [LinearOrderedField α] [FloorRing α] :
    round4 (0 : α) = 0 := by
  rw [round4, zero_mul, roundHE_zero]
  norm_num

lemma finalize_constCore : finalize constCore = .ok constResult := by
  have h : finalize constCore
      = .ok { t_stat := round4 ((0:ℝ)), alpha := round4 ((0:ℚ)),
              beta := round4 ((0:ℚ)), lag_used := 0,
              critical_values := get_critical_values 20,
              series_length := 20 } := rfl
  rw [h, @round4_zero ℝ _ _, @round4_zero ℚ _ _]
  with_unfolding_all rfl

lemma adf_test_replicate20 :
    adf_test (List.replicate 20 (1:ℚ)) 0 = .ok constResult := by
  rw [adf_test, adf_core_replicate20]
  exact finalize_constCore

/-! ### Claim C1 -/

/-- Claim C1 (code bug evaluation): on the degenerate input x = [1, 1]
(zero variance), y = [0, 2], the source's ols_regression returns the literal
tuple (0, 0, [-1, 1]): the alpha slot is 0, not mean(y) = 1, contradicting
the source's own comment (lib/adf_test.py line 24) and the spec, while
beta = 0 and the residuals y_i - mean(y) do match and no exception occurs. -/
theorem C1_code_eval :
    ols_regression [(1:ℚ), 1] [0, 2] = (0, 0, [-1, 1]) ∧
    mean [(0:ℚ), 2] = 1 :=
  ⟨by with_unfolding_all rfl, by with_unfolding_all rfl⟩

/-! ### Claim C2 -/

/-- Claim C2 (counterexample): the pure-Python Unit-Root Engine accepts the
constant series of 20 ones and returns a result, but that result's key list
(lib/adf_test.py lines 104-111) has no isStationary key at all, so it is not
true that every engine result carries an isStationary boolean. -/
theorem C2_counterexample :
    (adf_test (List.replicate 20 (1:ℚ)) 0).toOption.isSome = true ∧
    "isStationary" ∉ adf_result_keys := by
  constructor
  · rw [adf_test_replicate20]; rfl
  · simp [adf_result_keys]

/-- Claim C2 (amended): the pure-Python engine's result dict carries exactly
the keys t_stat, alpha, beta, lag_used, critical_values and series_length —
no isStationary; the library-backed endpoint (api/adf-test.py line 111)
derives its isStationary as pValue ≤ 0.05, not by comparing the statistic
with the 5% critical value. -/
theorem C2_amended :
    adf_result_keys =
      ["t_stat", "alpha", "beta", "lag_used", "critical_values",
       "series_length"] ∧
    "isStationary" ∉ adf_result_keys ∧
    (∀ p : ℚ, is_stationary p = true ↔ p ≤ 1 / 20) := by
  refine ⟨rfl, by simp [adf_result_keys], fun p => ?_⟩
  rw [is_stationary, decide_eq_true_iff]
  norm_num

/-- Witness for C2_amended at the concrete p-value 1/25. -/
theorem C2_amended_witness :
    (1 : ℚ) / 25 ≤ 1 / 20 ∧ is_stationary ((1 : ℚ) / 25) = true :=
  ⟨by norm_num, (C2_amended.2.2 (1 / 25)).mpr (by norm_num)⟩

/-! ### Claim C4 -/

lemma standard_error_error {x r : List ℚ} {e : AdfError}
    (h : standard_error x r = .error e) : e = .zeroDivision := by
  simp only [standard_error] at h
  split_ifs at h
  all_goals simp at h
  exact h.symm

lemma coreCheckError_finalize (c : AdfCore) :
    coreCheckError (finalize c) = false := by
  rw [finalize]
  rcases ht : t_stat c.beta (seReal c.se) with _ | t <;> rfl

lemma coreCheckError_mkCore (n : ℕ) (l : ℤ) (x y : List ℚ) :
    coreCheckError ((mkCore n l x y).bind finalize) = false := by
  simp only [mkCore]
  split_ifs
  · rfl
  · rcases hse : standard_error x (ols_regression x y).2.2 with e | se
    · have he := standard_error_error hse
      subst he
      rfl
    · exact coreCheckError_finalize _

/-- Claim C4: the Unit-Root Engine fails with one of the three validation
errors (series too short / negative lags / lags too large) exactly when
n < 20, or lags < 0, or lags ≥ n - 1; equivalently, whenever n ≥ 20 and
0 ≤ lags < n - 1 all three validation checks pass (whatever later errors the
computation may still produce). -/
theorem C4_validation (s : List ℚ) (lags : ℤ) :
    coreCheckError (adf_test s lags) = true ↔
      (s.length < 20 ∨ lags < 0 ∨ (s.length : ℤ) - 1 ≤ lags) := by
  rw [adf_test]
  simp only [adf_core]
  split_ifs
  · exact iff_of_true rfl (by omega)
  · exact iff_of_true rfl (by omega)
  · exact iff_of_true rfl (by omega)
  · exact iff_of_false (fun hh => Bool.false_ne_true hh) (by omega)
  · refine iff_of_false ?_ (by omega)
    rw [coreCheckError_mkCore]
    exact Bool.false_ne_true
  · refine iff_of_false ?_ (by omega)
    rw [coreCheckError_mkCore]
    exact Bool.false_ne_true

/-- Witness for C4_validation: a 5-point series is rejected by the length
check. -/
theorem C4_witness :
    ((List.replicate 5 (0:ℚ)).length < 20 ∨ (0:ℤ) < 0 ∨
      ((List.replicate 5 (0:ℚ)).length : ℤ) - 1 ≤ 0) ∧
    coreCheckError (adf_test (List.replicate 5 (0:ℚ)) 0) = true :=
  ⟨Or.inl (by simp), (C4_validation _ 0).mpr (Or.inl (by simp))⟩

/-! ### Claim C6 -/

/-- Claim C6: the critical values are looked up on the ORIGINAL series length
n from the fixed bucket table, the four buckets are exactly as documented,
and the boundary lookups n = 25, 26, 50, 51, 100, 101 land in the first,
second, second, third, third and fourth bucket respectively. -/
theorem C6_critical_values :
    (∀ n : ℕ,
      (n ≤ 25 → get_critical_values n = ⟨-3.75, -3.00, -2.63⟩) ∧
      (25 < n → n ≤ 50 → get_critical_values n = ⟨-3.58, -2.93, -2.60⟩) ∧
      (50 < n → n ≤ 100 → get_critical_values n = ⟨-3.50, -2.89, -2.58⟩) ∧
      (100 < n → get_critical_values n = ⟨-3.46, -2.88, -2.57⟩)) ∧
    get_critical_values 25 = ⟨-3.75, -3.00, -2.63⟩ ∧
    get_critical_values 26 = ⟨-3.58, -2.93, -2.60⟩ ∧
    get_critical_values 50 = ⟨-3.58, -2.93, -2.60⟩ ∧
    get_critical_values 51 = ⟨-3.50, -2.89, -2.58⟩ ∧
    get_critical_values 100 = ⟨-3.50, -2.89, -2.58⟩ ∧
    get_critical_values 101 = ⟨-3.46, -2.88, -2.57⟩ ∧
    ∀ (s : List ℚ) (l : ℤ) (r : AdfResult),
      adf_test s l = .ok r → r.critical_values = get_critical_values s.length := by
  refine ⟨fun n => ⟨fun h => ?_, fun h1 h2 => ?_, fun h1 h2 => ?_, fun h => ?_⟩,
    by with_unfolding_all rfl, by with_unfolding_all rfl,
    by with_unfolding_all rfl, by with_unfolding_all rfl,
    by with_unfolding_all rfl, by with_unfolding_all rfl,
    fun s l r h => ?_⟩
  · rw [get_critical_values]; split_ifs <;> first | rfl | omega
  · rw [get_critical_values]; split_ifs <;> first | rfl | omega
  · rw [get_critical_values]; split_ifs <;> first | rfl | omega
  · rw [get_critical_values]; split_ifs <;> first | rfl | omega
  · obtain ⟨c, hc, hf⟩ := adf_test_ok h
    obtain ⟨t, ht, hr⟩ := finalize_ok hf
    rw [hr]
    show get_critical_values c.n = get_critical_values s.length
    rw [adf_core_n hc]

/-- Witness for C6_critical_values: the constant 20-point series succeeds and
its result carries the n ≤ 25 bucket looked up on n = 20. -/
theorem C6_witness :
    adf_test (List.replicate 20 (1:ℚ)) 0 = .ok constResult ∧
    constResult.critical_values
      = get_critical_values (List.replicate 20 (1:ℚ)).length ∧
    get_critical_values 20 = ⟨-3.75, -3.00, -2.63⟩ :=
  ⟨adf_test_replicate20,
   C6_critical_values.2.2.2.2.2.2.2 _ 0 _ adf_test_replicate20,
   (C6_critical_values.1 20).1 (by norm_num)⟩

/-! ### Claim C9 -/

/-- Claim C9: for every regression fit, if n < 2 or the sum of squared
deviations of x is 0, the standard error is the inf sentinel, and the
t-statistic computation (lib/adf_test.py lines 97-100) yields 0 when beta = 0
and inf when beta ≠ 0 — never a division failure.  (Under the hypothesis the
fit is the degenerate one, so beta is in fact always 0 and the nonzero-beta
arm is vacuous.) -/
theorem C9_sentinel (x y : List ℚ)
    (h : x.length < 2 ∨ sumSqDev x = 0) :
    standard_error x (ols_regression x y).2.2 = .ok .inf ∧
    (ols_regression x y).2.1 = 0 ∧
    ((ols_regression x y).2.1 = 0 →
      t_stat (ols_regression x y).2.1 (seReal .inf) = some 0) ∧
    ((ols_regression x y).2.1 ≠ 0 →
      t_stat (ols_regression x y).2.1 (seReal .inf) = none) := by
  have hb := ols_beta_eq_zero (y := y) h
  exact ⟨standard_error_inf h, hb, fun _ => t_stat_of_inf _,
    fun hne => absurd hb hne⟩

/-- Witness for C9_sentinel at x = [1, 1] (zero variance), y = [0, 2]. -/
theorem C9_witness :
    ((([(1:ℚ), 1] : List ℚ).length < 2 ∨ sumSqDev [(1:ℚ), 1] = 0) ∧
      standard_error [(1:ℚ), 1] (ols_regression [(1:ℚ), 1] [0, 2]).2.2
        = .ok .inf) :=
  ⟨Or.inr (by with_unfolding_all rfl),
   (C9_sentinel [(1:ℚ), 1] [0, 2] (Or.inr (by with_unfolding_all rfl))).1⟩

/-! ### Aligner lemmas -/

lemma lookup_isSome_iff {l : List (ℕ × ℚ)} {d : ℕ} :
    (List.lookup d l).isSome = true ↔ d ∈ l.map Prod.fst := by
  induction l with
  | nil => simp [List.lookup]
  | cons p t ih =>
    obtain ⟨k, v⟩ := p
    by_cases hk : d = k
    · subst hk
      simp [List.lookup_cons]
    · rw [List.lookup_cons,
        show (d == k) = false from beq_eq_false_iff_ne.mpr hk]
      simpa [hk] using ih

lemma dictOf_isSome {l : List (ℕ × ℚ)} {d : ℕ} :
    (dictOf l d).isSome = true ↔ d ∈ l.map Prod.fst := by
  rw [dictOf, lookup_isSome_iff]
  simp

lemma mem_allDates {a b : List (ℕ × ℚ)} {d : ℕ} :
    d ∈ allDates a b ↔ d ∈ a.map Prod.fst ∧ d ∈ b.map Prod.fst := by
  rw [allDates, (List.perm_insertionSort _ _).mem_iff]
  simp [List.mem_dedup, List.mem_filter]

lemma nodup_allDates (a b : List (ℕ × ℚ)) : (allDates a b).Nodup := by
  rw [allDates]
  exact ((List.perm_insertionSort _ _).nodup_iff).mpr (List.nodup_dedup _)

lemma allDates_sorted (a b : List (ℕ × ℚ)) :
    List.Pairwise (· < ·) (allDates a b) := by
  have hs : List.Sorted (· ≤ ·) (allDates a b) :=
    List.sorted_insertionSort _ _
  have hn := nodup_allDates a b
  exact (hs.and hn).imp (fun h => lt_of_le_of_ne h.1 h.2)

lemma filterMap_eq_map_of_all_some {α β : Type} {f : α → Option β}
    {g : α → β} {l : List α} (h : ∀ x ∈ l, f x = some (g x)) :
    l.filterMap f = l.map g := by
  induction l with
  | nil => rfl
  | cons x t ih =>
    rw [List.filterMap_cons, h x (by simp), List.map_cons,
      ih (fun y hy => h y (by simp [hy]))]

lemma alignData_eq_map (a b : List (ℕ × ℚ)) :
    alignData a b = (allDates a b).map (alignedOf a b) := by
  rw [alignData]
  apply filterMap_eq_map_of_all_some
  intro d hd
  obtain ⟨hda, hdb⟩ := mem_allDates.mp hd
  obtain ⟨p, hp⟩ := Option.isSome_iff_exists.mp (dictOf_isSome.mpr hda)
  obtain ⟨q, hq⟩ := Option.isSome_iff_exists.mp (dictOf_isSome.mpr hdb)
  rw [hp, hq]
  show some (⟨d, p, q⟩ : ARec) = some (alignedOf a b d)
  rw [alignedOf, hp, hq, Option.getD_some, Option.getD_some]

lemma alignData_dates (a b : List (ℕ × ℚ)) :
    (alignData a b).map (fun r => r.date) = allDates a b := by
  rw [alignData_eq_map, List.map_map]
  rw [show ((fun r : ARec => r.date) ∘ alignedOf a b) = id from rfl]
  exact List.map_id _

lemma alignData_sorted (a b : List (ℕ × ℚ)) :
    List.Pairwise (· < ·) ((alignData a b).map (fun r => r.date)) := by
  rw [alignData_dates]
  exact allDates_sorted a b

lemma alignData_length (a b : List (ℕ × ℚ)) :
    (alignData a b).length = (allDates a b).length := by
  rw [alignData_eq_map, List.length_map]

lemma alignData_length_le_left (a b : List (ℕ × ℚ)) :
    (alignData a b).length ≤ a.length := by
  rw [alignData_length, allDates, (List.perm_insertionSort _ _).length_eq]
  calc ((a.map Prod.fst).filter _).dedup.length
      ≤ ((a.map Prod.fst).filter _).length := (List.dedup_sublist _).length_le
    _ ≤ (a.map Prod.fst).length := List.length_filter_le _ _
    _ = a.length := List.length_map _ _

lemma alignData_length_le_right (a b : List (ℕ × ℚ)) :
    (alignData a b).length ≤ b.length := by
  rw [alignData_length]
  have hn := nodup_allDates a b
  have hsub : allDates a b ⊆ b.map Prod.fst :=
    fun d hd => (mem_allDates.mp hd).2
  calc (allDates a b).length
      ≤ (b.map Prod.fst).length := (hn.subperm hsub).length_le
    _ = b.length := List.length_map _ _

lemma alignData_mem {a b : List (ℕ × ℚ)} {d : ℕ} :
    (∃ p q, (⟨d, p, q⟩ : ARec) ∈ alignData a b) ↔
      (d ∈ a.map Prod.fst ∧ d ∈ b.map Prod.fst) := by
  rw [alignData_eq_map]
  constructor
  · rintro ⟨p, q, hm⟩
    obtain ⟨d2, hd2, he⟩ := List.mem_map.mp hm
    have hdd : d2 = d := congrArg ARec.date he
    subst hdd
    exact mem_allDates.mp hd2
  · intro hd
    exact ⟨_, _, List.mem_map_of_mem _ (mem_allDates.mpr hd)⟩

/-! ### Claim C7 -/

/-- Claim C7: the Series Aligner produces records exactly for the dates in
both series, sorted strictly ascending (hence at most min of the lengths
records), and when the aligned length is below the window the pipeline
returns the DataError-style error result rather than a success payload. -/
theorem C7_aligner (a b : List (ℕ × ℚ)) (W : ℕ)
    (oracle : List ℚ → Option ℚ) :
    (∀ d : ℕ, (∃ p q, (⟨d, p, q⟩ : ARec) ∈ alignData a b) ↔
        (d ∈ a.map Prod.fst ∧ d ∈ b.map Prod.fst)) ∧
    List.Pairwise (· < ·) ((alignData a b).map (fun r => r.date)) ∧
    (alignData a b).length ≤ min a.length b.length ∧
    ((alignData a b).length < W →
      run_ols_and_adf_arch_api a b W oracle = .error insufficientDataMsg) := by
  refine ⟨fun d => alignData_mem, alignData_sorted a b,
    le_min (alignData_length_le_left a b) (alignData_length_le_right a b),
    fun h => ?_⟩
  rw [run_ols_and_adf_arch_api, if_pos h]

/-- Witness for C7_aligner: on the spec's example the aligned dates are
exactly 2, 3, 5 in ascending order, and a window of 4 exceeds the 3 aligned
points, producing the error result. -/
theorem C7_witness :
    (alignData c7A c7B).map (fun r => r.date) = [2, 3, 5] ∧
    (alignData c7A c7B).length < 4 ∧
    run_ols_and_adf_arch_api c7A c7B 4 (fun _ => none)
      = .error insufficientDataMsg := by
  have hlen : (alignData c7A c7B).length = 3 := by with_unfolding_all rfl
  refine ⟨by with_unfolding_all rfl, by omega,
    (C7_aligner c7A c7B 4 (fun _ => none)).2.2.2 (by omega)⟩

/-! ### Rolling pipeline lemmas -/

lemma getLast?_getD_of_ne_nil {α : Type} {l : List α} (h : l ≠ [])
    (d1 d2 : α) : (l.getLast?).getD d1 = (l.getLast?).getD d2 := by
  obtain ⟨y, hy⟩ := Option.isSome_iff_exists.mp (List.getLast?_isSome.mpr h)
  rw [hy]
  rfl

lemma foldl_pipeStep (A : List ARec) (W : ℕ) (o : List ℚ → Option ℚ) :
    ∀ (is : List ℕ) (acc : List SignalRecord) (l0 : Option ℚ),
      is.foldl (pipeStep A W o) (acc, l0)
        = (acc ++ is.map (windowRecord A W o),
           ((is.map (fun i => (windowRecord A W o i).adf_statistic)).getLast?).getD
             l0) := by
  intro is
  induction is with
  | nil => intro acc l0; simp
  | cons i tl ih =>
    intro acc l0
    rw [List.foldl_cons,
      show pipeStep A W o (acc, l0) i
        = (acc ++ [windowRecord A W o i],
           (windowRecord A W o i).adf_statistic) from rfl,
      ih, List.map_cons, List.map_cons]
    refine Prod.ext ?_ ?_
    · simp
    · show ((tl.map fun k => (windowRecord A W o k).adf_statistic).getLast?).getD
          (windowRecord A W o i).adf_statistic
        = (((windowRecord A W o i).adf_statistic ::
            tl.map fun k => (windowRecord A W o k).adf_statistic).getLast?).getD l0
      cases htl : tl.map fun k => (windowRecord A W o k).adf_statistic with
      | nil => simp
      | cons x xs =>
        rw [List.getLast?_cons_cons]
        exact getLast?_getD_of_ne_nil (by simp) _ _

lemma pipeLoop_results (A : List ARec) (W : ℕ) (o : List ℚ → Option ℚ) :
    (pipeLoop A W o).1
      = (List.range' (W - 1) (A.length - W + 1)).map (windowRecord A W o) := by
  rw [pipeLoop, foldl_pipeStep]
  simp

lemma pipeLoop_last (A : List ARec) (W : ℕ) (o : List ℚ → Option ℚ) :
    (pipeLoop A W o).2
      = (((List.range' (W - 1) (A.length - W + 1)).map
          (fun i => (windowRecord A W o i).adf_statistic)).getLast?).getD none := by
  rw [pipeLoop, foldl_pipeStep]

lemma run_ok {tcs hcl : List (ℕ × ℚ)} {W : ℕ}
    {oracle : List ℚ → Option ℚ} {out : PipeOut}
    (h : run_ols_and_adf_arch_api tcs hcl W oracle = .ok out) :
    W ≤ (alignData tcs hcl).length ∧
    out.results = (pipeLoop (alignData tcs hcl) W oracle).1 ∧
    out.last_adf_statistic = (pipeLoop (alignData tcs hcl) W oracle).2 := by
  rw [run_ols_and_adf_arch_api] at h
  split_ifs at h with hlen
  injection h with h
  exact ⟨by omega, by rw [← h], by rw [← h]⟩

lemma windowRecord_date (A : List ARec) (W : ℕ) (o : List ℚ → Option ℚ)
    (i : ℕ) : (windowRecord A W o i).date = (A.getD i defaultARec).date := rfl

/-! ### Claim C3 -/

/-- Claim C3 (counterexample): on c3tcs/c3hcl with window 11 and an ADF
engine returning 1, the pipeline emits two records — the first has
rollingADFStatistic 1 (the last window where it was computable), the second
has an undefined statistic — yet the reported pipeline-level
last_adf_statistic is the undefined value (none), not 1: line 103 of
api/calculate_adf.py overwrites it on every window, computable or not. -/
theorem C3_counterexample :
    (run_ols_and_adf_arch_api c3tcs c3hcl 11 (fun _ => some 1)).toOption.map
        (fun out => (out.results.map (fun r => r.adf_statistic),
          out.last_adf_statistic))
      = some ([some 1, none], none) := by
  with_unfolding_all rfl

/-- Claim C3 (amended): the pipeline-level last_adf_statistic is the
rollingADFStatistic of the LAST EMITTED record — undefined whenever the last
window's statistic is undefined — not the statistic of the last window where
it was computable. -/
theorem C3_amended (tcs hcl : List (ℕ × ℚ)) (W : ℕ)
    (oracle : List ℚ → Option ℚ) (out : PipeOut)
    (h : run_ols_and_adf_arch_api tcs hcl W oracle = .ok out) :
    out.results ≠ [] ∧
    out.last_adf_statistic
      = ((out.results.getLast?).map (fun r => r.adf_statistic)).getD none := by
  obtain ⟨hW, hres, hlast⟩ := run_ok h
  constructor
  · rw [hres, pipeLoop_results]
    intro hnil
    have := congrArg List.length hnil
    simp [List.length_range'] at this
  · rw [hres, hlast, pipeLoop_results, pipeLoop_last,
      List.getLast?_map, List.getLast?_map, Option.map_map]
    rfl

/-- Witness for C3_amended on the C3 input. -/
theorem C3_amended_witness :
    run_ols_and_adf_arch_api c3tcs c3hcl 11 (fun _ => some 1) = .ok c3out ∧
    c3out.results ≠ [] ∧
    c3out.last_adf_statistic
      = ((c3out.results.getLast?).map (fun r => r.adf_statistic)).getD none := by
  have hrun : run_ols_and_adf_arch_api c3tcs c3hcl 11 (fun _ => some 1)
      = .ok c3out := by with_unfolding_all rfl
  exact ⟨hrun, (C3_amended _ _ _ _ _ hrun).1, (C3_amended _ _ _ _ _ hrun).2⟩

/-! ### Claim C5 -/

/-- Claim C5: for aligned length L and window 1 ≤ W ≤ L the pipeline emits
exactly L - W + 1 records (no singular-fit skip can occur: the exact
least-squares fit always exists), the first record is the window ending at
aligned index W - 1, the last the one ending at index L - 1, and the
emitted records are strictly ascending by date. -/
theorem C5_rolling_count (tcs hcl : List (ℕ × ℚ)) (W : ℕ)
    (oracle : List ℚ → Option ℚ) (out : PipeOut) (hW : 1 ≤ W)
    (h : run_ols_and_adf_arch_api tcs hcl W oracle = .ok out) :
    out.results.length = (alignData tcs hcl).length - W + 1 ∧
    out.results.map (fun r => r.date)
      = ((alignData tcs hcl).map (fun r => r.date)).drop (W - 1) ∧
    (out.results.map (fun r => r.date))[0]?
      = ((alignData tcs hcl).map (fun r => r.date))[W - 1]? ∧
    (out.results.map (fun r => r.date))[out.results.length - 1]?
      = ((alignData tcs hcl).map
          (fun r => r.date))[(alignData tcs hcl).length - 1]? ∧
    List.Pairwise (· < ·) (out.results.map (fun r => r.date)) := by
  obtain ⟨hWL, hres, _⟩ := run_ok h
  set A := alignData tcs hcl with hA
  have hlen : out.results.length = A.length - W + 1 := by
    rw [hres, pipeLoop_results, List.length_map, List.length_range']
  have hdates : out.results.map (fun r => r.date)
      = (A.map (fun r => r.date)).drop (W - 1) := by
    rw [hres, pipeLoop_results, List.map_map]
    apply List.ext_getElem
    · simp only [List.length_map, List.length_range', List.length_drop]
      omega
    · intro j h1 h2
      rw [List.getElem_map, Function.comp_apply, windowRecord_date,
        List.getElem_range', one_mul, List.getElem_drop, List.getElem_map]
      have hj : j < A.length - W + 1 := by
        simpa only [List.length_map, List.length_range'] using h1
      rw [List.getD_eq_getElem A defaultARec (by omega)]
  refine ⟨hlen, hdates, ?_, ?_, ?_⟩
  · rw [hdates, List.getElem?_drop, Nat.add_zero]
  · rw [hdates, List.getElem?_drop, hlen]
    congr 1
    omega
  · rw [hdates]
    exact List.Pairwise.sublist (List.drop_sublist _ _)
      (alignData_sorted tcs hcl)

/-- Witness for C5_rolling_count: 3 aligned dates and window 2 give
3 - 2 + 1 = 2 records with dates 1 and 2. -/
theorem C5_witness :
    run_ols_and_adf_arch_api c5a c5b 2 (fun _ => none) = .ok c5out ∧
    c5out.results.length = (alignData c5a c5b).length - 2 + 1 ∧
    c5out.results.map (fun r => r.date) = [1, 2] := by
  have hrun : run_ols_and_adf_arch_api c5a c5b 2 (fun _ => none)
      = .ok c5out := by with_unfolding_all rfl
  exact ⟨hrun, (C5_rolling_count _ _ _ _ _ (by omega) hrun).1,
    by with_unfolding_all rfl⟩

/-! ### Claim C8 -/

lemma mean_replicate {n : ℕ} (hn : n ≠ 0) (x : ℚ) :
    mean (List.replicate n x) = x := by
  rw [mean, if_neg (by simp [hn]), List.sum_replicate, List.length_replicate,
    nsmul_eq_mul]
  exact mul_div_cancel_left₀ x (Nat.cast_ne_zero.mpr hn)

lemma popVar_of_all_eq {l : List ℚ} (h : ∀ s ∈ l, s = l.headD 0) :
    popVar l = 0 := by
  cases l with
  | nil => simp [popVar, mean]
  | cons x xs =>
    have hall : ∀ s ∈ x :: xs, s = x := by simpa using h
    have hrep : x :: xs = List.replicate (x :: xs).length x :=
      List.eq_replicate_of_mem hall
    rw [hrep, popVar, mean_replicate (by simp) x, List.map_replicate]
    simp

lemma windowSpreads_length {A : List ARec} {W i : ℕ} (hW : 1 ≤ W)
    (hi1 : W - 1 ≤ i) (hi2 : i < A.length) :
    (windowSpreads A W i).length = W := by
  rw [windowSpreads]
  simp only [List.length_map, windowOf, List.length_take, List.length_drop]
  omega

lemma windowZ_none {A : List ARec} {W i : ℕ}
    (h : popVar (windowSpreads A W i) = 0) : windowZ A W i = none := by
  rw [windowZ, if_neg]
  rintro ⟨-, hv⟩
  exact hv h

lemma windowStat_none_of_all_eq {A : List ARec} {W i : ℕ}
    {oracle : List ℚ → Option ℚ}
    (h : ∀ s ∈ windowSpreads A W i, s = (windowSpreads A W i).headD 0) :
    windowStat A W oracle i = none := by
  rw [windowStat, if_neg]
  rintro ⟨-, hns⟩
  exact hns h

lemma windowStat_none_short {A : List ARec} {W i : ℕ}
    {oracle : List ℚ → Option ℚ} (h : (windowSpreads A W i).length ≤ 10) :
    windowStat A W oracle i = none := by
  rw [windowStat, if_neg]
  rintro ⟨h10, -⟩
  omega

lemma windowStat_none_oracle {A : List ARec} {W i : ℕ}
    {oracle : List ℚ → Option ℚ}
    (h : oracle (windowSpreads A W i) = none) :
    windowStat A W oracle i = none := by
  rw [windowStat]
  split_ifs
  · exact h
  · rfl

/-- Claim C8: a window whose spread values are all identical yields an
undefined z-score (its population variance is 0) and an undefined rolling
statistic; a window of length at most 10, or one on which the ADF engine
invocation fails, also yields an undefined statistic; in every case the
record is still emitted and the pipeline still returns a success payload. -/
theorem C8_degenerate (tcs hcl : List (ℕ × ℚ)) (W : ℕ)
    (oracle : List ℚ → Option ℚ) (i : ℕ) (hW : 1 ≤ W)
    (hi1 : W - 1 ≤ i) (hi2 : i < (alignData tcs hcl).length) :
    ((∀ s ∈ windowSpreads (alignData tcs hcl) W i,
        s = (windowSpreads (alignData tcs hcl) W i).headD 0) →
      (windowRecord (alignData tcs hcl) W oracle i).z_score = none ∧
      (windowRecord (alignData tcs hcl) W oracle i).adf_statistic = none) ∧
    (W ≤ 10 →
      (windowRecord (alignData tcs hcl) W oracle i).adf_statistic = none) ∧
    (oracle (windowSpreads (alignData tcs hcl) W i) = none →
      (windowRecord (alignData tcs hcl) W oracle i).adf_statistic = none) ∧
    run_ols_and_adf_arch_api tcs hcl W oracle
      = .ok ⟨(pipeLoop (alignData tcs hcl) W oracle).1,
             (pipeLoop (alignData tcs hcl) W oracle).2⟩ ∧
    windowRecord (alignData tcs hcl) W oracle i
      ∈ (pipeLoop (alignData tcs hcl) W oracle).1 := by
  refine ⟨fun hsame => ⟨windowZ_none (popVar_of_all_eq hsame),
      windowStat_none_of_all_eq hsame⟩,
    fun h10 => windowStat_none_short
      (by rw [windowSpreads_length hW hi1 hi2]; exact h10),
    fun horacle => windowStat_none_oracle horacle, ?_, ?_⟩
  · rw [run_ols_and_adf_arch_api, if_neg (by omega)]
  · rw [pipeLoop_results]
    exact List.mem_map_of_mem _ (List.mem_range'_1.mpr ⟨hi1, by omega⟩)

/-- Witness for C8_degenerate: the flat window has all-identical spreads and
gets an undefined z-score and statistic even though the oracle returns a
value. -/
theorem C8_witness :
    (∀ s ∈ windowSpreads (alignData c8a c8b) 2 1,
        s = (windowSpreads (alignData c8a c8b) 2 1).headD 0) ∧
    (windowRecord (alignData c8a c8b) 2 (fun _ => some 7) 1).z_score = none ∧
    (windowRecord (alignData c8a c8b) 2 (fun _ => some 7) 1).adf_statistic
      = none := by
  have hsp : windowSpreads (alignData c8a c8b) 2 1 = [0, 0] := by
    with_unfolding_all rfl
  have hsame : ∀ s ∈ windowSpreads (alignData c8a c8b) 2 1,
      s = (windowSpreads (alignData c8a c8b) 2 1).headD 0 := by
    rw [hsp]
    intro s hs
    simp only [List.mem_cons, List.not_mem_nil, or_false] at hs
    rcases hs with h | h <;> simp [h]
  have hlen2 : (alignData c8a c8b).length = 2 := by with_unfolding_all rfl
  obtain ⟨hz, hstat⟩ :=
    (C8_degenerate c8a c8b 2 (fun _ => some 7) 1 (by omega) (by omega)
      (by omega)).1 hsame
  exact ⟨hsame, hz, hstat⟩

/-! ### Claim C10 -/

lemma roundHE_close {α : Type} [LinearOrderedField α] [FloorRing α]
    (x : α) : |((roundHE x : ℤ) : α) - x| ≤ 1 / 2 := by
  have h1 : ((⌊x⌋ : ℤ) : α) ≤ x := Int.floor_le x
  have h2 : x < ((⌊x⌋ : ℤ) : α) + 1 := Int.lt_floor_add_one x
  rw [roundHE]
  split_ifs with ha hb hc
  · rw [abs_le]
    constructor <;> linarith
  · rw [abs_le]
    push_cast
    constructor <;> linarith
  · rw [abs_le]
    push_neg at ha hb
    constructor <;> linarith
  · rw [abs_le]
    push_neg at ha hb
    push_cast
    constructor <;> linarith

lemma round4_close {α : Type} [LinearOrderedField α] [FloorRing α]
    (x : α) : |((round4 x : ℚ) : α) - x| ≤ 1 / 20000 := by
  have h := roundHE_close (x * 10000)
  rw [abs_le] at h
  rw [round4]
  have hc : ((((roundHE (x * 10000) : ℤ) : ℚ) / 10000 : ℚ) : α)
      = ((roundHE (x * 10000) : ℤ) : α) / 10000 := by
    push_cast
    ring
  rw [hc, abs_le]
  constructor <;> [linarith; linarith]

lemma round4_close_q (q : ℚ) : |round4 q - q| ≤ 1 / 20000 := by
  have h := round4_close (α := ℚ) q
  rwa [Rat.cast_id] at h

lemma round4_mul_den {α : Type} [LinearOrderedField α] [FloorRing α]
    (x : α) : ((round4 x * 10000 : ℚ)).den = 1 := by
  rw [round4, div_mul_cancel₀ _ (by norm_num : (10000:ℚ) ≠ 0),
    Rat.den_intCast]

/-- Claim C10: on every input the Unit-Root Engine accepts and completes,
the returned statistic, alpha and beta are the exactly computed values
rounded at 4 decimal places (half-to-even): each reported field is an
integer multiple of 1/10000 and within 1/20000 of its exact value, so the
engine's public output — including any downstream stationarity comparison —
is quantized at 1e-4 resolution. -/
theorem C10_rounding (s : List ℚ) (l : ℤ) (c : AdfCore) (r : AdfResult)
    (t : ℝ) (hc : adf_core s l = .ok c) (hr : adf_test s l = .ok r)
    (ht : exact_t c = some t) :
    r.t_stat = round4 t ∧ r.alpha = round4 c.alpha ∧
    r.beta = round4 c.beta ∧
    (r.t_stat * 10000).den = 1 ∧ (r.alpha * 10000).den = 1 ∧
    (r.beta * 10000).den = 1 ∧
    |((r.t_stat : ℚ) : ℝ) - t| ≤ 1 / 20000 ∧
    |r.alpha - c.alpha| ≤ 1 / 20000 ∧ |r.beta - c.beta| ≤ 1 / 20000 := by
  obtain ⟨c2, hc2, hf⟩ := adf_test_ok hr
  rw [hc] at hc2
  injection hc2 with hc2
  subst hc2
  obtain ⟨t2, ht2, hrr⟩ := finalize_ok hf
  rw [exact_t] at ht
  rw [ht] at ht2
  injection ht2 with ht2
  subst ht2
  subst hrr
  refine ⟨rfl, rfl, rfl, round4_mul_den _, round4_mul_den _,
    round4_mul_den _, round4_close _, round4_close_q _, round4_close_q _⟩

/-- Witness for C10_rounding on the constant series of 20 ones, whose exact
statistic is 0. -/
theorem C10_witness :
    adf_core (List.replicate 20 (1:ℚ)) 0 = .ok constCore ∧
    adf_test (List.replicate 20 (1:ℚ)) 0 = .ok constResult ∧
    exact_t constCore = some 0 ∧
    constResult.t_stat = round4 ((0:ℝ)) ∧
    |constResult.alpha - constCore.alpha| ≤ 1 / 20000 := by
  have h1 := adf_core_replicate20
  have h2 := adf_test_replicate20
  have h3 : exact_t constCore = some 0 := rfl
  exact ⟨h1, h2, h3, (C10_rounding _ _ _ _ _ h1 h2 h3).1,
    (C10_rounding _ _ _ _ _ h1 h2 h3).2.2.2.2.2.2.2.1⟩

end Cointest
